import Mathlib

/-!
Verification of the mwc-node core slice: chain error taxonomy
(chain/src/error.rs), global chain-type / NRD state and the difficulty
window padding (core/src/global.rs), the block/header HTTP query handlers
(api/src/handlers/blocks_api.rs) and the rangeproof verifier cache
contract (core/tests/verifier_cache.rs).

Shallow embedding conventions: Rust u64 values are Nat; a Rust panic
(index out of bounds, u64 subtraction underflow in debug builds, OneTime
re-initialisation) is modelled as `none` / absence of a result; process
global plus thread-local state is threaded explicitly as a state record;
the external chain database behind the API handlers is an explicit
record of lookup functions.
-/

namespace Mwc

/-! ### Chain types and global state (core/src/global.rs) -/

/-- Types of chain a server can run with (global.rs, enum ChainTypes). -/
inductive ChainTypes where
  | AutomatedTesting
  | UserTesting
  | Floonet
  | Mainnet
deriving DecidableEq, Repr

/-- State backing chain-type lookups: `GLOBAL_CHAIN_TYPE` is a OneTime
cell (set at most once), `CHAIN_TYPE` is the thread-local override cell.
Both are `Option`: `none` means unset. -/
structure ChainTypeState where
  global_chain_type : Option ChainTypes
  local_chain_type : Option ChainTypes
deriving DecidableEq, Repr

/-- Set the chain type on a per-thread basis (global.rs, set_local_chain_type). -/
def set_local_chain_type (new_type : ChainTypes) (s : ChainTypeState) : ChainTypeState :=
  { s with local_chain_type := some new_type }

/-- Get the chain type via thread_local, fallback to global chain_type
(global.rs, get_chain_type). Reading with both cells unset panics in the
source; the panic is modelled as `none`. On global fallback the value is
cached into the thread-local cell, so the (value, updated state) pair is
returned. -/
def get_chain_type (s : ChainTypeState) : Option (ChainTypes × ChainTypeState) :=
  match s.local_chain_type with
  | some chain_type => some (chain_type, s)
  | none =>
    match s.global_chain_type with
    | some chain_type => some (chain_type, set_local_chain_type chain_type s)
    | none => none

/-- One time initialization of the global chain_type (global.rs,
init_global_chain_type). Modelled from the spec: the util::OneTime cell
(not under src/) is fatal on re-initialisation, so a second init is
modelled as `none`. -/
def init_global_chain_type (new_type : ChainTypes) (s : ChainTypeState) : Option ChainTypeState :=
  match s.global_chain_type with
  | some _ => none
  | none => some { s with global_chain_type := some new_type }

/-- State backing the NRD feature flag: `GLOBAL_NRD_FEATURE_ENABLED`
(OneTime) and the thread-local `NRD_FEATURE_ENABLED` cell. -/
structure NrdFlagState where
  global_nrd_enabled : Option Bool
  local_nrd_enabled : Option Bool
deriving DecidableEq, Repr

/-- Explicitly set the thread-local NRD flag (global.rs, set_local_nrd_enabled). -/
def set_local_nrd_enabled (enabled : Bool) (s : NrdFlagState) : NrdFlagState :=
  { s with local_nrd_enabled := some enabled }

/-- One time initialization of the global NRD flag (global.rs,
init_global_nrd_enabled). Modelled from the spec: OneTime re-init is fatal. -/
def init_global_nrd_enabled (enabled : Bool) (s : NrdFlagState) : Option NrdFlagState :=
  match s.global_nrd_enabled with
  | some _ => none
  | none => some { s with global_nrd_enabled := some enabled }

/-- Is the NRD feature flag enabled? (global.rs, is_nrd_enabled).
Thread-local first; fallback to global, caching it locally; defaults to
false (no panic) when the global is unset. Returns the value together
with the possibly-updated state. -/
def is_nrd_enabled (s : NrdFlagState) : Bool × NrdFlagState :=
  match s.local_nrd_enabled with
  | some flag => (flag, s)
  | none =>
    match s.global_nrd_enabled with
    | some global_flag => (global_flag, set_local_nrd_enabled global_flag s)
    | none => (false, s)

/-! ### PoW context selection (core/src/global.rs, create_pow_context) -/

/-- The PoW family a context verifies. -/
inductive PowFamily where
  | cuckatoo
  | cuckarood
deriving DecidableEq, Repr

/-- Modelled from the spec: the cuckatoo(edge_bits, proof_size, max_sols)
constructor of pow (not under src/); only the selected family matters here. -/
def new_cuckatoo_ctx (_edge_bits _proof_size _max_sols : Nat) : PowFamily :=
  PowFamily.cuckatoo

/-- Modelled from the spec: the cuckaroo_d(edge_bits, proof_size)
constructor of pow (not under src/). -/
def new_cuckarood_ctx (_edge_bits _proof_size : Nat) : PowFamily :=
  PowFamily.cuckarood

/-- Return either a cuckarood context or a cuckatoo context (global.rs,
create_pow_context). The source reads the chain type via get_chain_type(),
so the chain-type state is passed explicitly; a get_chain_type panic
propagates as `none`. -/
def create_pow_context (s : ChainTypeState) (_height : Nat)
    (edge_bits proof_size max_sols : Nat) : Option PowFamily :=
  match get_chain_type s with
  | none => none
  | some (chain_type, _) =>
    some (match chain_type with
      | ChainTypes.Mainnet =>
        if edge_bits > 29 then new_cuckatoo_ctx edge_bits proof_size max_sols
        else new_cuckarood_ctx edge_bits proof_size
      | ChainTypes.Floonet =>
        if edge_bits > 29 then new_cuckatoo_ctx edge_bits proof_size max_sols
        else new_cuckarood_ctx edge_bits proof_size
      | _ => new_cuckatoo_ctx edge_bits proof_size max_sols)

/-! ### Difficulty window padding (core/src/global.rs, difficulty_data_to_vector) -/

/-- Modelled from the spec: HeaderInfo(timestamp, difficulty,
secondary_scaling, is_secondary) of consensus (not under src/).
Timestamps and difficulties are u64, modelled as Nat. -/
structure HeaderInfo where
  timestamp : Nat
  difficulty : Nat
  secondary_scaling : Nat
  is_secondary : Bool
deriving DecidableEq, Repr

/-- Modelled from the spec: HeaderInfo::from_ts_diff of consensus (not
under src/) builds a synthetic entry from a timestamp and difficulty;
the remaining fields are irrelevant to the claims checked here. -/
def HeaderInfo.from_ts_diff (timestamp difficulty : Nat) : HeaderInfo :=
  { timestamp := timestamp, difficulty := difficulty,
    secondary_scaling := 0, is_secondary := true }

/-- The padding loop of difficulty_data_to_vector: appends `m` synthetic
entries, each timestamp obtained from the previous by
`saturating_sub last_ts_delta` (u64 saturating_sub is exactly Nat
truncated subtraction). -/
def padLoop (delta diff : Nat) : Nat → Nat → List HeaderInfo
  | _, 0 => []
  | last_ts, Nat.succ m =>
    HeaderInfo.from_ts_diff (last_ts - delta) diff ::
      padLoop delta diff (last_ts - delta) m

/-- Converts an iterator of block difficulty data to a vector and pads it
if needed (global.rs, difficulty_data_to_vector). Parameterised by the
consensus constants DIFFICULTY_ADJUST_WINDOW (`W`) and BLOCK_TIME_SEC
(`bts`), which live in consensus (not under src/). Panics of the source
are modelled as `none`: indexing `last_n[0]` on an empty vector, and the
u64 subtraction `last_n[0].timestamp - last_n[1].timestamp` underflowing
(a panic in debug builds). -/
def difficulty_data_to_vector (W bts : Nat) (cursor : List HeaderInfo) :
    Option (List HeaderInfo) :=
  let needed_block_count := W + 1
  let last_n := cursor.take needed_block_count
  let n := last_n.length
  if needed_block_count > n then
    match last_n with
    | [] => none
    | h0 :: rest =>
      let deltaOpt : Option Nat :=
        match rest with
        | [] => some bts
        | h1 :: _ =>
          if h0.timestamp < h1.timestamp then none
          else some (h0.timestamp - h1.timestamp)
      match deltaOpt with
      | none => none
      | some last_ts_delta =>
        let last_diff := h0.difficulty
        let last_ts := (rest.getLastD h0).timestamp
        some (((h0 :: rest) ++
          padLoop last_ts_delta last_diff last_ts (needed_block_count - n)).reverse)
  else
    some last_n.reverse

/-- The last observed timestamp delta used by the padding: first minus
second real timestamp when at least two entries exist, the base block
time otherwise. -/
def lastDelta (bts : Nat) (h0 : HeaderInfo) (rest : List HeaderInfo) : Nat :=
  match rest with
  | [] => bts
  | h1 :: _ => h0.timestamp - h1.timestamp

/-! ### Chain error taxonomy (chain/src/error.rs) -/

/-- Stand-in for grin_store::Error (payload type not under src/; its
structure is irrelevant to is_bad_data). -/
abbrev StoreError := Unit

/-- Stand-in for ser::Error (not under src/). -/
abbrev SerError := Unit

/-- Stand-in for block::Error (not under src/). -/
abbrev BlockError := Unit

/-- Stand-in for transaction::Error (not under src/). -/
abbrev TransactionError := Unit

/-- Stand-in for committed::Error (not under src/). -/
abbrev CommittedError := Unit

/-- Stand-in for keychain::Error (not under src/). -/
abbrev KeychainError := Unit

/-- Stand-in for secp::Error (not under src/). -/
abbrev SecpError := Unit

/-- Stand-in for a 32-byte Blake2b hash payload. -/
abbrev HashPayload := List Nat

/-- Chain error definitions (error.rs, enum ErrorKind), with every
constructor and payload arity of the source. -/
inductive ErrorKind where
  | Unfit (s : String)
  | Orphan (s : String)
  | DifficultyTooLow
  | WrongTotalDifficulty
  | LowEdgebits
  | InvalidHash
  | InvalidScaling
  | InvalidPow
  | OldBlock
  | InvalidBlockProof (e : BlockError)
  | InvalidBlockTime
  | InvalidBlockHeight
  | InvalidRoot (s : String)
  | InvalidMMRSize
  | Keychain (e : KeychainError)
  | Secp (e : SecpError)
  | AlreadySpent (h : HashPayload)
  | DuplicateOutputId (h : HashPayload)
  | ImmatureCoinbase
  | MerkleProof (s : String)
  | OutputNotFound (s : String)
  | RangeproofNotFound (s : String)
  | TxKernelNotFound
  | OutputSpent
  | InvalidBlockVersion (v : Nat)
  | InvalidTxHashSet (s : String)
  | StoreErr (e : StoreError) (s : String)
  | FileReadErr (s : String)
  | SerErr (e : SerError)
  | TxHashSetErr (s : String)
  | TxLockHeight
  | NRDRelativeHeight
  | GenesisBlockRequired
  | Transaction (e : TransactionError)
  | Block (e : BlockError)
  | Other (s : String)
  | Committed (e : CommittedError)
  | Stopped
  | Bitmap
  | SyncError (s : String)
deriving DecidableEq

/-- The chain Error struct wraps a Context around an ErrorKind; only the
kind is observable through Error::kind(). -/
structure ChainError where
  kind : ErrorKind

/-- Whether the error is due to a block that was intrinsically wrong
(error.rs, Error::is_bad_data): false on the listed "not the block's
fault" kinds, true on everything else. -/
def ChainError.is_bad_data (e : ChainError) : Bool :=
  match e.kind with
  | ErrorKind.Unfit _ => false
  | ErrorKind.Orphan _ => false
  | ErrorKind.StoreErr _ _ => false
  | ErrorKind.SerErr _ => false
  | ErrorKind.TxHashSetErr _ => false
  | ErrorKind.GenesisBlockRequired => false
  | ErrorKind.Other _ => false
  | _ => true

/-! ### Block/header query handlers (api/src/handlers/blocks_api.rs) -/

/-- Decidable equality for Except results, used to settle handler
outcomes on concrete inputs. -/
instance {ε α : Type} [DecidableEq ε] [DecidableEq α] : DecidableEq (Except ε α) :=
  fun x y =>
    match x, y with
    | Except.ok a, Except.ok b =>
      if h : a = b then isTrue (by rw [h]) else isFalse (by intro hc; cases hc; exact h rfl)
    | Except.error a, Except.error b =>
      if h : a = b then isTrue (by rw [h]) else isFalse (by intro hc; cases hc; exact h rfl)
    | Except.ok _, Except.error _ => isFalse (by intro hc; cases hc)
    | Except.error _, Except.ok _ => isFalse (by intro hc; cases hc)

/-- API error kinds relevant to the handlers; the formatted message
strings of the source are elided. -/
inductive APIErrorKind where
  | NotFound
  | Argument
  | Internal
deriving DecidableEq, Repr

/-- A block hash value: the 32-byte array behind core's Hash. -/
abbrev HashBytes := List Nat

/-- A block header, reduced to the one observable the handlers use: its
hash. -/
structure BlockHeader where
  hash : HashBytes
deriving DecidableEq, Repr

/-- Printable header record returned by the API. -/
structure BlockHeaderPrintable where
  header : BlockHeader
deriving DecidableEq, Repr

/-- BlockHeaderPrintable::from_header. -/
def BlockHeaderPrintable.from_header (h : BlockHeader) : BlockHeaderPrintable :=
  { header := h }

/-- Stand-in for the OutputIdentifier handed from get_output to
get_header_for_output. -/
abbrev OutputIdent := Nat

/-- The external chain the handlers query, as a record of lookups.
`get_output` and `get_output_v2` model utils::get_output /
utils::get_output_v2 (not under src/): an Except error, or `none` for a
commit with no unspent output. The weak-reference upgrade w(&self.chain)
is modelled as always succeeding (a live chain). -/
structure Chain where
  get_header_by_height : Nat → Option BlockHeader
  get_block_header : HashBytes → Option BlockHeader
  get_output : String → Except APIErrorKind (Option OutputIdent)
  get_output_v2 : String → Except APIErrorKind (Option OutputIdent)
  get_header_for_output : OutputIdent → Option BlockHeader

/-- Is the character one of [0-9a-fA-F]. -/
def isHexChar (c : Char) : Bool :=
  "0123456789abcdefABCDEF".toList.contains c

/-- Do the first `k` characters exist and all lie in [0-9a-fA-F]. -/
def startsWithHexRun (k : Nat) (cs : List Char) : Bool :=
  decide (k ≤ cs.length) && (cs.take k).all isHexChar

/-- Does the character list contain `k` consecutive hex characters
anywhere: the semantics of Regex::new(r"[0-9a-fA-F]{k}").is_match, which
is an unanchored substring search. -/
def hasHexRun (k : Nat) : List Char → Bool
  | [] => startsWithHexRun k []
  | c :: cs => startsWithHexRun k (c :: cs) || hasHexRun k cs

/-- Validate a string as a hash candidate (blocks_api.rs,
check_block_param): the unanchored regex [0-9a-fA-F]{64} must match
somewhere in the input, else an Argument error. -/
def check_block_param (input : String) : Except APIErrorKind Unit :=
  if hasHexRun 64 input.data then Except.ok () else Except.error APIErrorKind.Argument

/-- Numeric value of a hex digit: its position in the lowercase hex
alphabet after case folding, none for a non-hex character. -/
def hexVal (c : Char) : Option Nat :=
  "0123456789abcdef".toList.indexOf? c.toLower

/-- Decode pairs of hex digits into bytes. -/
def hexPairs : List Char → Option (List Nat)
  | [] => some []
  | [_] => none
  | c1 :: c2 :: rest =>
    match hexVal c1, hexVal c2, hexPairs rest with
    | some v1, some v2, some bytes => some ((v1 * 16 + v2) :: bytes)
    | _, _, _ => none

/-- Modelled from the spec: util::from_hex (not under src/) decodes an
even-length hex string into bytes, failing otherwise. -/
def from_hex (s : String) : Option (List Nat) :=
  hexPairs s.data

/-- Hash::from_vec (not under src/): copies up to 32 bytes into a zeroed
32-byte buffer. -/
def Hash.from_vec (v : List Nat) : HashBytes :=
  v.take 32 ++ List.replicate (32 - v.length) 0

/-- Rust str::parse::<u64>: optional leading plus sign, then one or more
ASCII digits, value below 2^64. -/
def parseU64 (s : String) : Option Nat :=
  let cs := match s.data with
    | '+' :: rest => rest
    | cs => cs
  if cs.isEmpty then none
  else if cs.all Char.isDigit then
    let v := cs.foldl (fun acc c => 10 * acc + (c.toNat - 48)) 0
    if v < 2 ^ 64 then some v else none
  else none

namespace HeaderHandler

/-- HeaderHandler::get_header_for_output (blocks_api.rs): resolve a
commit to the header of the block containing its output. -/
def get_header_for_output (c : Chain) (commit_id : String) :
    Except APIErrorKind BlockHeaderPrintable :=
  match c.get_output commit_id with
  | Except.error e => Except.error e
  | Except.ok none => Except.error APIErrorKind.NotFound
  | Except.ok (some oid) =>
    match c.get_header_for_output oid with
    | some header => Except.ok (BlockHeaderPrintable.from_header header)
    | none => Except.error APIErrorKind.NotFound

/-- HeaderHandler::get_header (blocks_api.rs): try the input as an output
commit (any failure falls through), then as a numeric height (a
successful parse returns that lookup's result, success or NotFound),
then validate as a 64-hex hash candidate and look up by hash. -/
def get_header (c : Chain) (input : String) :
    Except APIErrorKind BlockHeaderPrintable :=
  match get_header_for_output c input with
  | Except.ok h => Except.ok h
  | Except.error _ =>
    match parseU64 input with
    | some height =>
      match c.get_header_by_height height with
      | some header => Except.ok (BlockHeaderPrintable.from_header header)
      | none => Except.error APIErrorKind.NotFound
    | none =>
      match check_block_param input with
      | Except.error e => Except.error e
      | Except.ok _ =>
        match from_hex input with
        | none => Except.error APIErrorKind.Argument
        | some v =>
          match c.get_block_header (Hash.from_vec v) with
          | some header => Except.ok (BlockHeaderPrintable.from_header header)
          | none => Except.error APIErrorKind.NotFound

/-- HeaderHandler::parse_inputs (blocks_api.rs): resolve a structured
(height, hash, commit) query to a block hash. Each present argument is
tried in that order with an early return; the Argument error of the
final line is reached only when all three are absent. -/
def parse_inputs (c : Chain) (height : Option Nat) (hash : Option HashBytes)
    (commit : Option String) : Except APIErrorKind HashBytes :=
  match height with
  | some height =>
    match c.get_header_by_height height with
    | some header => Except.ok header.hash
    | none => Except.error APIErrorKind.NotFound
  | none =>
    match hash with
    | some hash => Except.ok hash
    | none =>
      match commit with
      | some commit =>
        match c.get_output_v2 commit with
        | Except.error e => Except.error e
        | Except.ok none => Except.error APIErrorKind.NotFound
        | Except.ok (some oid) =>
          match c.get_header_for_output oid with
          | some header => Except.ok header.hash
          | none => Except.error APIErrorKind.NotFound
      | none => Except.error APIErrorKind.Argument

end HeaderHandler

namespace BlockHandler

/-- BlockHandler::parse_inputs (blocks_api.rs): identical control flow to
HeaderHandler::parse_inputs (the source duplicates it, differing only in
message strings). -/
def parse_inputs (c : Chain) (height : Option Nat) (hash : Option HashBytes)
    (commit : Option String) : Except APIErrorKind HashBytes :=
  match height with
  | some height =>
    match c.get_header_by_height height with
    | some header => Except.ok header.hash
    | none => Except.error APIErrorKind.NotFound
  | none =>
    match hash with
    | some hash => Except.ok hash
    | none =>
      match commit with
      | some commit =>
        match c.get_output_v2 commit with
        | Except.error e => Except.error e
        | Except.ok none => Except.error APIErrorKind.NotFound
        | Except.ok (some oid) =>
          match c.get_header_for_output oid with
          | some header => Except.ok header.hash
          | none => Except.error APIErrorKind.NotFound
      | none => Except.error APIErrorKind.Argument

end BlockHandler

/-- Result of resolving a height the way get_header does. -/
def height_lookup_result (c : Chain) (height : Nat) :
    Except APIErrorKind BlockHeaderPrintable :=
  match c.get_header_by_height height with
  | some header => Except.ok (BlockHeaderPrintable.from_header header)
  | none => Except.error APIErrorKind.NotFound

/-- Result of the hash branch of get_header: validate as a 64-hex
candidate, decode, look up by hash. -/
def hash_lookup_result (c : Chain) (input : String) :
    Except APIErrorKind BlockHeaderPrintable :=
  match check_block_param input with
  | Except.error e => Except.error e
  | Except.ok _ =>
    match from_hex input with
    | none => Except.error APIErrorKind.Argument
    | some v =>
      match c.get_block_header (Hash.from_vec v) with
      | some header => Except.ok (BlockHeaderPrintable.from_header header)
      | none => Except.error APIErrorKind.NotFound

/-- The amended resolution order for get_header, written from the
amended claim's words: the commit interpretation wins if it succeeds
(all its failures fall through); otherwise a successful numeric parse
commits to the height interpretation, whose result (found or NotFound)
is final; only when the numeric parse fails is the input validated as a
64-hex hash candidate and resolved by hash. -/
def get_header_spec_order (c : Chain) (input : String) :
    Except APIErrorKind BlockHeaderPrintable :=
  match (HeaderHandler.get_header_for_output c input).toOption with
  | some h => Except.ok h
  | none =>
    match parseU64 input with
    | some height => height_lookup_result c height
    | none => hash_lookup_result c input

/-! ### Rangeproof verifier cache (core/tests/verifier_cache.rs; the
LruVerifierCache implementation is not under src/) -/

/-- An output as the verifier cache sees it: a Pedersen commitment and a
range proof, both abstracted to Nat. -/
structure Output where
  commit : Nat
  proof : Nat
deriving DecidableEq, Repr

/-- Modelled from the spec: the cache key, the hash of
(commitment, range-proof), stood in for by the injective pairing. -/
def Output.key (o : Output) : Nat × Nat :=
  (o.commit, o.proof)

/-- Modelled from the spec: an LRU set of verified rangeproof keys of
bounded capacity; the list holds keys most-recently-used first. -/
structure LruVerifierCache where
  capacity : Nat
  rangeproof_verified : List (Nat × Nat)
deriving DecidableEq, Repr

/-- Modelled from the spec: inserting a key into an LRU set moves it to
the front (most recent) and evicts strictly least-recently-used keys
beyond the capacity. -/
def lruTouch (cap : Nat) (k : Nat × Nat) (l : List (Nat × Nat)) : List (Nat × Nat) :=
  (k :: l.filter (fun x => x ≠ k)).take cap

/-- Modelled from the spec: add_rangeproof_verified inserts every
output's key into the verified LRU set. -/
def add_rangeproof_verified (cache : LruVerifierCache) (outputs : List Output) :
    LruVerifierCache :=
  { cache with
    rangeproof_verified :=
      outputs.foldl (fun l o => lruTouch cache.capacity o.key l)
        cache.rangeproof_verified }

/-- Modelled from the spec: filter_rangeproof_unverified keeps exactly
the outputs whose key is not in the verified set. -/
def filter_rangeproof_unverified (cache : LruVerifierCache) (outputs : List Output) :
    List Output :=
  outputs.filter (fun o => !(cache.rangeproof_verified.contains o.key))

/-! ## Theorems -/

/-- C1 counterexample: the spec's non-peer list includes Stopped and
FileReadErr, but Error::is_bad_data judges both as bad data (true), so
the claim as stated is false at the Stopped (and FileReadErr) error. -/
theorem is_bad_data_stopped_counterexample :
    ChainError.is_bad_data ⟨ErrorKind.Stopped⟩ = true ∧
    ChainError.is_bad_data ⟨ErrorKind.FileReadErr "io"⟩ = true ∧
    ChainError.is_bad_data ⟨ErrorKind.Bitmap⟩ = true ∧
    ChainError.is_bad_data ⟨ErrorKind.SyncError "sync"⟩ = true := by
  refine ⟨rfl, rfl, rfl, rfl⟩

/-- C1 (amended): is_bad_data returns false exactly when the error kind
is one of Unfit, Orphan, StoreErr, SerErr, TxHashSetErr,
GenesisBlockRequired, Other, and true for every other kind (including
FileReadErr, Stopped, Bitmap and SyncError, despite the spec listing
them as non-peer kinds). -/
theorem is_bad_data_iff_nonpeer (k : ErrorKind) :
    ChainError.is_bad_data ⟨k⟩ = false ↔
      ((∃ s, k = ErrorKind.Unfit s) ∨ (∃ s, k = ErrorKind.Orphan s) ∨
       (∃ e s, k = ErrorKind.StoreErr e s) ∨ (∃ e, k = ErrorKind.SerErr e) ∨
       (∃ s, k = ErrorKind.TxHashSetErr s) ∨ k = ErrorKind.GenesisBlockRequired ∨
       (∃ s, k = ErrorKind.Other s)) := by
  cases k <;> simp [ChainError.is_bad_data]

/-- C3 counterexample: on the empty iterator (with the consensus window
and block time at their mainnet values 60 and 60) the function panics
(modelled: none); it does not return entries at the initial difficulty. -/
theorem difficulty_data_to_vector_empty_counterexample :
    difficulty_data_to_vector 60 60 [] = none := by
  rfl

/-- C3 (amended): for every window size and base block time, applying
difficulty_data_to_vector to an empty input iterator panics by indexing
entry 0 of the empty collected vector (modelled: returns none) instead
of emitting entries at the chain's initial difficulty. -/
theorem difficulty_data_to_vector_empty_panics (W bts : Nat) :
    difficulty_data_to_vector W bts [] = none := by
  simp [difficulty_data_to_vector]

/-- C4: create_pow_context selects the family by network policy: when
the chain-type state resolves (get_chain_type succeeds), Mainnet and
Floonet use cuckaroo-d for edge_bits at most 29 and cuckatoo above 29,
while the testing chains always use cuckatoo. -/
theorem create_pow_context_family (s : ChainTypeState) (height eb ps ms : Nat)
    (ct : ChainTypes) (s' : ChainTypeState)
    (hg : get_chain_type s = some (ct, s')) :
    create_pow_context s height eb ps ms =
      some (if (ct = ChainTypes.Mainnet ∨ ct = ChainTypes.Floonet) ∧ eb ≤ 29
        then PowFamily.cuckarood else PowFamily.cuckatoo) := by
  unfold create_pow_context
  rw [hg]
  rcases Nat.lt_or_ge 29 eb with h | h
  · cases ct <;> simp [new_cuckatoo_ctx, new_cuckarood_ctx, h, Nat.not_le.mpr h]
  · cases ct <;> simp [new_cuckatoo_ctx, new_cuckarood_ctx, Nat.not_lt.mpr h, h]

/-- C4 witness: on Mainnet with edge_bits 29 the context is cuckaroo-d. -/
theorem create_pow_context_family_witness :
    create_pow_context ⟨none, some ChainTypes.Mainnet⟩ 0 29 42 10 =
      some PowFamily.cuckarood := by
  have h := create_pow_context_family ⟨none, some ChainTypes.Mainnet⟩ 0 29 42 10
    ChainTypes.Mainnet ⟨none, some ChainTypes.Mainnet⟩ rfl
  simpa using h

/-- C5: get_chain_type returns the thread-local override when set,
otherwise falls back to the global value (caching it locally), and
panics (modelled: none) when neither is initialised; re-initialising the
global chain type is fatal (modelled: none), while a first
initialisation succeeds. -/
theorem get_chain_type_layering :
    (∀ g ct, get_chain_type ⟨g, some ct⟩ = some (ct, ⟨g, some ct⟩)) ∧
    (∀ ct, get_chain_type ⟨some ct, none⟩ = some (ct, ⟨some ct, some ct⟩)) ∧
    get_chain_type ⟨none, none⟩ = none ∧
    (∀ t g l, init_global_chain_type t ⟨some g, l⟩ = none) ∧
    (∀ t l, init_global_chain_type t ⟨none, l⟩ = some ⟨some t, l⟩) := by
  refine ⟨fun g ct => rfl, fun ct => rfl, rfl, fun t g l => rfl, fun t l => rfl⟩

/-- C10: is_nrd_enabled returns false (without panicking) when neither
the thread-local nor the global NRD flag is initialised — unlike
get_chain_type, which panics in that situation — and when resolving from
the global it caches the value into the thread-local cell. -/
theorem is_nrd_enabled_defaults :
    is_nrd_enabled ⟨none, none⟩ = (false, ⟨none, none⟩) ∧
    (∀ b, is_nrd_enabled ⟨some b, none⟩ = (b, ⟨some b, some b⟩)) ∧
    (∀ b g, is_nrd_enabled ⟨g, some b⟩ = (b, ⟨g, some b⟩)) ∧
    get_chain_type ⟨none, none⟩ = none := by
  refine ⟨rfl, fun b => rfl, fun b g => rfl, rfl⟩

/-- Closed form of the reversed padding loop: entry i (oldest first)
carries the oldest real timestamp minus (m - i) deltas, each step a
saturating subtraction. -/
theorem padLoop_reverse (delta diff : Nat) (m : Nat) :
    ∀ last_ts : Nat,
      (padLoop delta diff last_ts m).reverse =
        (List.range m).map
          (fun i => HeaderInfo.from_ts_diff (last_ts - (m - i) * delta) diff) := by
  induction m with
  | zero => intro last_ts; simp [padLoop]
  | succ m ih =>
    intro last_ts
    rw [padLoop, List.reverse_cons, ih (last_ts - delta), List.range_succ,
      List.map_append, List.map_cons, List.map_nil]
    congr 1
    · apply List.map_congr_left
      intro i hi
      have him : i < m := List.mem_range.mp hi
      have : last_ts - delta - (m - i) * delta = last_ts - (m + 1 - i) * delta := by
        rw [Nat.sub_sub]
        congr 1
        have : m + 1 - i = (m - i) + 1 := by omega
        rw [this, Nat.succ_mul]
        omega
      rw [this]
    · simp

/-- C2: with 1 ≤ k < W+1 real entries, most-recent first (the second
timestamp not exceeding the first), difficulty_data_to_vector returns
exactly W+1 entries; the last k are the real entries in original
timestamp order, and the earlier W+1-k synthetic entries carry the
latest observed difficulty, with timestamps stepping back from the
oldest real timestamp by the last observed delta (first minus second
timestamp) or by the base block time when k = 1, each step a saturating
subtraction. -/
theorem difficulty_data_to_vector_pad (W bts : Nat) (h0 : HeaderInfo)
    (rest : List HeaderInfo) (hlen : rest.length < W)
    (hts : ∀ h1, rest.head? = some h1 → h1.timestamp ≤ h0.timestamp) :
    difficulty_data_to_vector W bts (h0 :: rest) =
      some ((List.range (W - rest.length)).map
          (fun i => HeaderInfo.from_ts_diff
            ((rest.getLastD h0).timestamp -
              (W - rest.length - i) * lastDelta bts h0 rest)
            h0.difficulty)
        ++ (h0 :: rest).reverse) ∧
    ((List.range (W - rest.length)).map
        (fun i => HeaderInfo.from_ts_diff
          ((rest.getLastD h0).timestamp -
            (W - rest.length - i) * lastDelta bts h0 rest)
          h0.difficulty)
      ++ (h0 :: rest).reverse).length = W + 1 := by
  constructor
  · have htake : (h0 :: rest).take (W + 1) = h0 :: rest := by
      apply List.take_of_length_le
      simp
      omega
    unfold difficulty_data_to_vector
    simp only [htake]
    rw [if_pos (by simp; omega)]
    cases rest with
    | nil =>
      simp only [lastDelta, List.getLastD]
      rw [List.reverse_append, padLoop_reverse]
      simp
    | cons h1 rest' =>
      have hts1 : ¬h0.timestamp < h1.timestamp :=
        Nat.not_lt.mpr (hts h1 rfl)
      simp only [hts1, if_false]
      rw [List.reverse_append, padLoop_reverse]
      simp only [lastDelta, List.getLastD]
      have hcount : W + 1 - (h1 :: rest').length.succ = W - (h1 :: rest').length := by
        omega
      simp [hcount]
  · simp
    omega

/-- C2 witness: window W = 3, base block time 60, two real entries
(timestamps 120 then 100, difficulties 7 then 5): the result is the two
real entries in chronological order preceded by two synthetic entries
at difficulty 7 stepping back by delta 20 from timestamp 100. -/
theorem difficulty_data_to_vector_pad_witness :
    difficulty_data_to_vector 3 60 [⟨120, 7, 0, true⟩, ⟨100, 5, 0, true⟩] =
      some [⟨60, 7, 0, true⟩, ⟨80, 7, 0, true⟩, ⟨100, 5, 0, true⟩, ⟨120, 7, 0, true⟩] := by
  have h := (difficulty_data_to_vector_pad 3 60 ⟨120, 7, 0, true⟩ [⟨100, 5, 0, true⟩]
    (by decide) (by intro h1 hh; cases hh; decide)).1
  rw [h]
  rfl

/-- C6 counterexample: for the input of 64 zeros on a chain with no
output for it and no header at height 0 but a block header stored under
the hash of 32 zero bytes, get_header answers NotFound from the height
interpretation (64 zeros parses as the number 0) even though the later
hash interpretation would succeed — a failure of an earlier
interpretation masks a later successful one, contrary to the claim. -/
theorem get_header_height_masks_hash_counterexample :
    HeaderHandler.get_header
        { get_header_by_height := fun _ => none
        , get_block_header := fun h =>
            if h = List.replicate 32 0 then some { hash := List.replicate 32 0 } else none
        , get_output := fun _ => Except.ok none
        , get_output_v2 := fun _ => Except.ok none
        , get_header_for_output := fun _ => none }
        "0000000000000000000000000000000000000000000000000000000000000000" =
      Except.error APIErrorKind.NotFound ∧
    hash_lookup_result
        { get_header_by_height := fun _ => none
        , get_block_header := fun h =>
            if h = List.replicate 32 0 then some { hash := List.replicate 32 0 } else none
        , get_output := fun _ => Except.ok none
        , get_output_v2 := fun _ => Except.ok none
        , get_header_for_output := fun _ => none }
        "0000000000000000000000000000000000000000000000000000000000000000" =
      Except.ok { header := { hash := List.replicate 32 0 } } := by
  exact ⟨by decide, by decide⟩

/-- C6 (amended): get_header tries the interpretations in the fixed
order commit, then height, then hash, where every commit failure falls
through, but a successful numeric parse commits to the height
interpretation — its result, found or NotFound, is final and the hash
interpretation is only reached when the numeric parse fails; this is
exactly the behaviour of get_header_spec_order. -/
theorem get_header_resolution_amended (c : Chain) (input : String) :
    HeaderHandler.get_header c input = get_header_spec_order c input := by
  unfold HeaderHandler.get_header get_header_spec_order height_lookup_result hash_lookup_result
  cases hcm : HeaderHandler.get_header_for_output c input with
  | ok h => simp [Except.toOption]
  | error e => simp only [Except.toOption]

/-- C7 counterexample: supplying more than one argument does not yield
an Argument error — with both a height and a hash (and even a commit)
present, the height interpretation wins and the call succeeds. -/
theorem parse_inputs_multiple_args_counterexample :
    HeaderHandler.parse_inputs
        { get_header_by_height := fun n => if n = 5 then some { hash := [1] } else none
        , get_block_header := fun _ => none
        , get_output := fun _ => Except.ok none
        , get_output_v2 := fun _ => Except.ok none
        , get_header_for_output := fun _ => none }
        (some 5) (some [2]) (some "c") = Except.ok [1] := by
  decide

/-- C7 (amended): for both HeaderHandler::parse_inputs and
BlockHandler::parse_inputs, supplying none of height, hash, commit
yields an Argument error, but supplying more than one does not: the
first present argument in the fixed order height, hash, commit is used
and the others are ignored. -/
theorem parse_inputs_priority (c : Chain) :
    (HeaderHandler.parse_inputs c none none none = Except.error APIErrorKind.Argument) ∧
    (BlockHandler.parse_inputs c none none none = Except.error APIErrorKind.Argument) ∧
    (∀ n hs cm, HeaderHandler.parse_inputs c (some n) hs cm =
      HeaderHandler.parse_inputs c (some n) none none) ∧
    (∀ hs cm, HeaderHandler.parse_inputs c none (some hs) cm = Except.ok hs) ∧
    (∀ n hs cm, BlockHandler.parse_inputs c (some n) hs cm =
      BlockHandler.parse_inputs c (some n) none none) ∧
    (∀ hs cm, BlockHandler.parse_inputs c none (some hs) cm = Except.ok hs) := by
  refine ⟨rfl, rfl, fun n hs cm => rfl, fun hs cm => rfl, fun n hs cm => rfl,
    fun hs cm => rfl⟩

/-- A string prefix of length k of all hex characters exists exactly
when the list splits as a k-length hex block followed by a remainder. -/
theorem startsWithHexRun_iff (k : Nat) (cs : List Char) :
    startsWithHexRun k cs = true ↔
      ∃ mid post, cs = mid ++ post ∧ mid.length = k ∧ mid.all isHexChar = true := by
  unfold startsWithHexRun
  rw [Bool.and_eq_true, decide_eq_true_eq]
  constructor
  · rintro ⟨hk, hall⟩
    refine ⟨cs.take k, cs.drop k, (List.take_append_drop k cs).symm, ?_, hall⟩
    rw [List.length_take]
    exact Nat.min_eq_left hk
  · rintro ⟨mid, post, rfl, hlen, hall⟩
    refine ⟨?_, ?_⟩
    · rw [List.length_append]; omega
    · rw [← hlen, List.take_left]; exact hall

/-- The unanchored regex semantics: hasHexRun holds exactly when the
list contains k consecutive hex characters somewhere, i.e. splits as
prefix, k-length hex block, remainder. -/
theorem hasHexRun_iff (k : Nat) (cs : List Char) :
    hasHexRun k cs = true ↔
      ∃ pre mid post, cs = pre ++ (mid ++ post) ∧ mid.length = k ∧
        mid.all isHexChar = true := by
  induction cs with
  | nil =>
    rw [show hasHexRun k [] = startsWithHexRun k [] from rfl, startsWithHexRun_iff]
    constructor
    · rintro ⟨mid, post, heq, hlen, hall⟩
      exact ⟨[], mid, post, by simpa using heq, hlen, hall⟩
    · rintro ⟨pre, mid, post, heq, hlen, hall⟩
      rcases List.append_eq_nil.mp heq.symm with ⟨hpre, hmp⟩
      exact ⟨mid, post, hmp.symm, hlen, hall⟩
  | cons c cs ih =>
    rw [show hasHexRun k (c :: cs) = (startsWithHexRun k (c :: cs) || hasHexRun k cs)
        from rfl,
      Bool.or_eq_true, startsWithHexRun_iff, ih]
    constructor
    · rintro (⟨mid, post, heq, hlen, hall⟩ | ⟨pre, mid, post, heq, hlen, hall⟩)
      · exact ⟨[], mid, post, by simpa using heq, hlen, hall⟩
      · exact ⟨c :: pre, mid, post, by simp [heq], hlen, hall⟩
    · rintro ⟨pre, mid, post, heq, hlen, hall⟩
      cases pre with
      | nil => exact Or.inl ⟨mid, post, by simpa using heq, hlen, hall⟩
      | cons p pre =>
        simp only [List.cons_append] at heq
        injection heq with h1 h2
        exact Or.inr ⟨pre, mid, post, h2, hlen, hall⟩

/-- C8 counterexample: a 65-character string that merely contains a run
of 64 hex characters is accepted by check_block_param, so acceptance is
not equivalent to being exactly a 64-character hex string. -/
theorem check_block_param_superstring_counterexample :
    check_block_param
        "z0000000000000000000000000000000000000000000000000000000000000000" =
      Except.ok () ∧
    ("z0000000000000000000000000000000000000000000000000000000000000000" : String).length
      = 65 := by
  exact ⟨by decide, by decide⟩

/-- C8 (amended): check_block_param succeeds exactly when the input
contains 64 consecutive hexadecimal characters (case-insensitive)
anywhere — the regex is unanchored, so any superstring of a 64-hex run
is also accepted — and every other string yields an Argument error. -/
theorem check_block_param_hex_run (input : String) :
    (check_block_param input = Except.ok () ↔
      ∃ pre mid post, input.data = pre ++ (mid ++ post) ∧ mid.length = 64 ∧
        mid.all isHexChar = true) ∧
    (check_block_param input = Except.ok () ∨
      check_block_param input = Except.error APIErrorKind.Argument) := by
  constructor
  · rw [← hasHexRun_iff]
    unfold check_block_param
    cases hh : hasHexRun 64 input.data <;> simp [hh]
  · unfold check_block_param
    cases hh : hasHexRun 64 input.data <;> simp [hh]

/-- Taking n elements of a nonempty list keeps the head. -/
theorem take_cons_of_pos {α : Type} (n : Nat) (a : α) (l : List α) (h : 0 < n) :
    (a :: l).take n = a :: l.take (n - 1) := by
  cases n with
  | zero => omega
  | succ m => simp [List.take_succ_cons]

/-- Truncating a list that starts with a block A shorter than n keeps A
and the element right after it. -/
theorem take_append_cons {α : Type} (n : Nat) (A : List α) (k : α) (R : List α)
    (h : A.length < n) :
    (A ++ k :: R).take n = A ++ k :: R.take (n - A.length - 1) := by
  rw [List.take_append_eq_append_take]
  rw [List.take_of_length_le (le_of_lt h)]
  congr 1
  exact take_cons_of_pos (n - A.length) k R (by omega)

/-- LRU survival invariant: once a key k sits in the cache list behind a
duplicate-free block P of keys distinct from k, inserting a further
sequence ys keeps k in the list as long as the keys of P together with
the distinct keys of ys other than k number fewer than the capacity. -/
theorem lru_foldl_mem_invariant (cap : Nat) (k : Nat × Nat) (ys : List (Nat × Nat)) :
    ∀ (P rest : List (Nat × Nat)),
      k ∉ P → P.Nodup →
      (P ++ ys.filter (fun y => y ≠ k)).toFinset.card < cap →
      k ∈ ys.foldl (fun acc y => lruTouch cap y acc) (P ++ k :: rest) := by
  induction ys with
  | nil =>
    intro P rest _ _ _
    simp
  | cons y ys ih =>
    intro P rest hkP hPnd hcard
    rw [List.foldl_cons]
    by_cases hyk : y = k
    · subst hyk
      have hcap1 : 0 < cap := lt_of_le_of_lt (Nat.zero_le _) hcard
      have hstep : lruTouch cap y (P ++ y :: rest) =
          [] ++ y :: ((P ++ y :: rest).filter (fun x => x ≠ y)).take (cap - 1) := by
        unfold lruTouch
        rw [List.nil_append]
        exact take_cons_of_pos cap _ _ hcap1
      rw [hstep]
      apply ih [] _ (List.not_mem_nil y) List.nodup_nil
      rw [List.nil_append]
      have hfe : (y :: ys).filter (fun z => z ≠ y) = ys.filter (fun z => z ≠ y) := by
        rw [List.filter_cons_of_neg (by simp)]
      rw [← hfe]
      calc ((y :: ys).filter (fun z => z ≠ y)).toFinset.card
          ≤ (P ++ (y :: ys).filter (fun z => z ≠ y)).toFinset.card := by
            apply Finset.card_le_card
            rw [List.toFinset_append]
            exact Finset.subset_union_right
        _ < cap := hcard
    · have hky : k ≠ y := fun h => hyk h.symm
      have hfilsplit : (P ++ k :: rest).filter (fun x => x ≠ y) =
          P.filter (fun x => x ≠ y) ++ k :: rest.filter (fun x => x ≠ y) := by
        rw [List.filter_append, List.filter_cons_of_pos (by simp [hky])]
      have hAnd : (y :: P.filter (fun x => x ≠ y)).Nodup := by
        rw [List.nodup_cons]
        constructor
        · intro hy
          have := List.mem_filter.mp hy
          simp at this
        · exact List.Nodup.filter _ hPnd
      have hAsub : (y :: P.filter (fun x => x ≠ y)).toFinset ⊆
          (P ++ (y :: ys).filter (fun z => z ≠ k)).toFinset := by
        intro a ha
        rw [List.mem_toFinset] at ha
        rw [List.mem_toFinset, List.mem_append]
        rcases List.mem_cons.mp ha with ha | ha
        · subst ha
          right
          rw [List.filter_cons_of_pos (by simp [hyk])]
          exact List.mem_cons_self _ _
        · left
          exact (List.mem_filter.mp ha).1
      have hAlen : (y :: P.filter (fun x => x ≠ y)).length < cap := by
        rw [← List.toFinset_card_of_nodup hAnd]
        exact lt_of_le_of_lt (Finset.card_le_card hAsub) hcard
      have hstep : lruTouch cap y (P ++ k :: rest) =
          (y :: P.filter (fun x => x ≠ y)) ++ k ::
            (rest.filter (fun x => x ≠ y)).take
              (cap - (y :: P.filter (fun x => x ≠ y)).length - 1) := by
        unfold lruTouch
        rw [hfilsplit]
        rw [show (y :: (P.filter (fun x => x ≠ y) ++ k :: rest.filter (fun x => x ≠ y)))
            = (y :: P.filter (fun x => x ≠ y)) ++ k :: rest.filter (fun x => x ≠ y)
            from rfl]
        exact take_append_cons cap _ k _ hAlen
      rw [hstep]
      apply ih
      · intro hkA
        rcases List.mem_cons.mp hkA with h | h
        · exact hky h
        · exact hkP ((List.mem_filter.mp h).1)
      · exact hAnd
      · have hsub2 : ((y :: P.filter (fun x => x ≠ y)) ++
            ys.filter (fun z => z ≠ k)).toFinset ⊆
            (P ++ (y :: ys).filter (fun z => z ≠ k)).toFinset := by
          rw [List.toFinset_append]
          apply Finset.union_subset hAsub
          intro a ha
          rw [List.mem_toFinset] at ha
          rw [List.mem_toFinset, List.mem_append]
          right
          rw [List.filter_cons_of_pos (by simp [hyk])]
          exact List.mem_cons_of_mem y ha
        exact lt_of_le_of_lt (Finset.card_le_card hsub2) hcard

/-- Every key inserted into the LRU set is still present after the whole
insertion sequence, provided the distinct other keys inserted number
fewer than the capacity. -/
theorem lru_foldl_mem_of_mem (cap : Nat) (k : Nat × Nat) (ys : List (Nat × Nat)) :
    ∀ l : List (Nat × Nat), k ∈ ys →
      (ys.filter (fun y => y ≠ k)).toFinset.card < cap →
      k ∈ ys.foldl (fun acc y => lruTouch cap y acc) l := by
  induction ys with
  | nil => intro l hk _; cases hk
  | cons y ys ih =>
    intro l hk hcard
    rw [List.foldl_cons]
    by_cases hyk : y = k
    · subst hyk
      have hcap1 : 0 < cap := lt_of_le_of_lt (Nat.zero_le _) hcard
      have hstep : lruTouch cap y l =
          [] ++ y :: (l.filter (fun x => x ≠ y)).take (cap - 1) := by
        unfold lruTouch
        rw [List.nil_append]
        exact take_cons_of_pos cap _ _ hcap1
      rw [hstep]
      apply lru_foldl_mem_invariant cap y ys [] _ (List.not_mem_nil y) List.nodup_nil
      rw [List.nil_append]
      have hfe : (y :: ys).filter (fun z => z ≠ y) = ys.filter (fun z => z ≠ y) := by
        rw [List.filter_cons_of_neg (by simp)]
      rw [← hfe]
      exact hcard
    · have hk' : k ∈ ys := by
        rcases List.mem_cons.mp hk with h | h
        · exact absurd h.symm hyk
        · exact h
      apply ih _ hk'
      have hsub : (ys.filter (fun z => z ≠ k)).toFinset ⊆
          ((y :: ys).filter (fun z => z ≠ k)).toFinset := by
        rw [List.filter_cons_of_pos (by simp [hyk])]
        rw [List.toFinset_cons]
        exact Finset.subset_insert _ _
      exact lt_of_le_of_lt (Finset.card_le_card hsub) hcard

/-- C9 counterexample: with a capacity-1 LRU cache, adding the two
outputs (1,1) and (2,2) evicts the first, so filtering the same list
afterwards returns [(1,1)], not the empty list — the claim without a
capacity bound is false. -/
theorem verifier_cache_eviction_counterexample :
    filter_rangeproof_unverified
        (add_rangeproof_verified ⟨1, []⟩ [⟨1, 1⟩, ⟨2, 2⟩]) [⟨1, 1⟩, ⟨2, 2⟩]
      = [⟨1, 1⟩] := by
  decide

/-- C9 (amended): whenever the outputs xs carry at most capacity many
distinct keys, adding them all via add_rangeproof_verified and then
filtering xs with filter_rangeproof_unverified returns the empty list:
no key added (and not subsequently evicted, which the bound rules out)
appears in the filtered-unverified output. -/
theorem verifier_cache_add_filter (cache : LruVerifierCache) (xs : List Output)
    (hcap : (xs.map Output.key).toFinset.card ≤ cache.capacity) :
    filter_rangeproof_unverified (add_rangeproof_verified cache xs) xs = [] := by
  unfold filter_rangeproof_unverified add_rangeproof_verified
  rw [List.filter_eq_nil_iff]
  intro o ho
  have hfold : xs.foldl (fun l o => lruTouch cache.capacity o.key l)
        cache.rangeproof_verified
      = (xs.map Output.key).foldl (fun l y => lruTouch cache.capacity y l)
        cache.rangeproof_verified := by
    rw [List.foldl_map]
  have hkmem : o.key ∈ (xs.map Output.key).toFinset := by
    rw [List.mem_toFinset]
    exact List.mem_map_of_mem _ ho
  have hmem : o.key ∈ (xs.map Output.key).foldl
      (fun l y => lruTouch cache.capacity y l) cache.rangeproof_verified := by
    apply lru_foldl_mem_of_mem
    · exact List.mem_map_of_mem _ ho
    · have herase : ((xs.map Output.key).filter (fun y => y ≠ o.key)).toFinset
          = (xs.map Output.key).toFinset.erase o.key := by
        ext a
        simp [List.mem_filter, Finset.mem_erase, List.mem_toFinset, and_comm]
      rw [herase, Finset.card_erase_of_mem hkmem]
      have h1 : 0 < (xs.map Output.key).toFinset.card := Finset.card_pos.mpr ⟨_, hkmem⟩
      omega
  rw [hfold]
  simp [hmem]

/-- C9 witness: a capacity-2 cache absorbs the two distinct outputs
(1,1) and (2,2), after which filtering them reports none unverified. -/
theorem verifier_cache_add_filter_witness :
    (([⟨1, 1⟩, ⟨2, 2⟩] : List Output).map Output.key).toFinset.card ≤ 2 ∧
    filter_rangeproof_unverified
        (add_rangeproof_verified ⟨2, []⟩ [⟨1, 1⟩, ⟨2, 2⟩]) [⟨1, 1⟩, ⟨2, 2⟩] = [] :=
  ⟨by decide, verifier_cache_add_filter ⟨2, []⟩ [⟨1, 1⟩, ⟨2, 2⟩] (by decide)⟩

end Mwc
